import Mathlib

/-!
Verification development for the QuantTrans backtesting system.

The Python sources that this file embeds:
  - apps/backtest/strategies.py : eleven backtrader strategy classes and
    the STRATEGY_REGISTRY dict;
  - apps/backtest/engine.py     : run_backtest, the orchestrator;
  - apps/backtest/optimizer.py  : batch_backtest_all_strategies,
    find_best_strategy;
  - apps/analysis/indicators.py : IndicatorEngine._calc_rsi;
  - apps/data_master/management/commands/aggregate_minute_data.py :
    Command.aggregate_kline.

Modelling conventions.
  * Prices and indicator values are rationals (ℚ); pandas/numpy NaN and
    infinities, where they matter, are modelled by Option ℚ or by an
    explicit IEEE-style extended type (`PF`, below).
  * backtrader drives a strategy bar by bar.  A strategy instance whose
    indicator lines require at most `m` bars of history ("minperiod") has
    its `next()` method invoked only once `len(self.data) >= m`; before
    that the framework calls the no-op `prenext()`.  We embed this driver
    as a gate in front of the translated `next()` body.
  * Indicator line values read inside `next()` (e.g. `self.rsi[0]`) are
    modelled as snapshot inputs to the step function: each strategy gets a
    snapshot structure with one field per indicator line it reads, typed
    `Option ℚ` where the source guards against NaN and `ℚ` where it does
    not.  The claims proved here do not depend on the numeric values of
    those lines, so the theorems quantify over arbitrary snapshots.
  * `len(self.data)` is `BtEnv.dataLen`, a 1-based count of bars delivered
    so far.
-/

namespace QuantTrans

/-- The decision a strategy's per-bar step emits: submit a buy order,
submit a sell order, or do nothing (hold). -/
inductive Decision where
  | hold
  | buy
  | sell
deriving DecidableEq, Repr

/-- Per-bar view of the data feed, broker and pending-order state that the
strategies' `next()` bodies read.  Field names follow the backtrader
accessors used in strategies.py: `open0` is `self.data.open[0]`,
`closePrev` is `self.data.close[-1]`, `hasOrder` is `self.order is not
None`, `hasPosition` is `bool(self.position)`, `positionPrice` is
`self.position.price`, `positionSize` is `self.position.size`,
`totalValue` is `self.broker.getvalue()`, `dataLen` is `len(self.data)`. -/
structure BtEnv where
  dataLen : ℕ
  open0 : ℚ
  high0 : ℚ
  low0 : ℚ
  close0 : ℚ
  volume0 : ℚ
  openPrev : ℚ
  highPrev : ℚ
  lowPrev : ℚ
  closePrev : ℚ
  hasOrder : Bool
  hasPosition : Bool
  positionPrice : ℚ
  positionSize : ℤ
  totalValue : ℚ
deriving Repr

/-! ### MACrossStrategy (strategies.py lines 10-127)

Indicators: `SMA(close, fast_period)`, `SMA(close, slow_period)`,
`CrossOver(fast_ma, slow_ma)`.  backtrader minperiods: an SMA of period
`n` needs `n` bars; `CrossOver` compares two consecutive values of its
operands, so it needs one bar more than the larger operand minperiod. -/

structure MACrossParams where
  fast_period : ℕ
  slow_period : ℕ
deriving Repr

/-- Snapshot of the indicator lines `MACrossStrategy.next` reads.
`crossover` is `self.crossover[0]`; the source checks it with
`pd.isna`, so it is `Option ℚ` (none = NaN). -/
structure MACrossSnap where
  fast_ma : ℚ
  slow_ma : ℚ
  crossover : Option ℚ
deriving Repr

/-- Largest number of bars any indicator of MACrossStrategy needs before
its value is defined (the strategy's backtrader minperiod). -/
def macrossMaxLookback (p : MACrossParams) : ℕ :=
  max (max p.fast_period p.slow_period) (max p.fast_period p.slow_period + 1)

/-- Body of `MACrossStrategy.next` (strategies.py lines 88-124), after the
equity-curve append.  Guard: `if len(self.data) < self.params.slow_period
+ 1: return`; then `if self.order: return`; then the NaN check on the
crossover line; then buy on upward cross when flat, sell on downward cross
when long. -/
def macrossNext (p : MACrossParams) (env : BtEnv) (s : MACrossSnap) : Decision :=
  if env.dataLen < p.slow_period + 1 then .hold
  else if env.hasOrder then .hold
  else
    match s.crossover with
    | none => .hold
    | some cv =>
      if !env.hasPosition then
        if cv > 0 then .buy else .hold
      else
        if cv < 0 then .sell else .hold

/-- The framework-driven per-bar step: backtrader calls `next()` only when
`len(self.data)` has reached the strategy minperiod; earlier bars go to the
no-op `prenext()`. -/
def macrossStep (p : MACrossParams) (env : BtEnv) (s : MACrossSnap) : Decision :=
  if env.dataLen < macrossMaxLookback p then .hold
  else macrossNext p env s

/-! ### MACDStrategy (strategies.py lines 130-237)

Indicators: `MACD(close, fast, slow, signal)` (minperiod
`slow + signal - 1`: the slow EMA needs `slow` bars and the signal EMA of
the MACD line adds `signal - 1`), `CrossOver(macd, signal)` (one more). -/

structure MACDParams where
  fast_period : ℕ
  slow_period : ℕ
  signal_period : ℕ
deriving Repr

/-- Indicator lines `MACDStrategy.next` reads; the crossover line is
NaN-checked in the source. -/
structure MACDSnap where
  macd : ℚ
  signal : ℚ
  crossover : Option ℚ
deriving Repr

def macdMaxLookback (p : MACDParams) : ℕ :=
  max (p.slow_period + p.signal_period - 1) (p.slow_period + p.signal_period)

/-- Body of `MACDStrategy.next` (lines 197-234): guard
`len(self.data) < slow_period + signal_period + 1`, pending-order check,
NaN check on the crossover line, then buy/sell on the cross. -/
def macdNext (p : MACDParams) (env : BtEnv) (s : MACDSnap) : Decision :=
  if env.dataLen < p.slow_period + p.signal_period + 1 then .hold
  else if env.hasOrder then .hold
  else
    match s.crossover with
    | none => .hold
    | some cv =>
      if !env.hasPosition then
        if cv > 0 then .buy else .hold
      else
        if cv < 0 then .sell else .hold

def macdStep (p : MACDParams) (env : BtEnv) (s : MACDSnap) : Decision :=
  if env.dataLen < macdMaxLookback p then .hold
  else macdNext p env s

/-! ### RSIStrategy (strategies.py lines 240-336)

Indicator: `RSI(close, period)`; backtrader's RSI is built from one-bar
deltas smoothed over `period` values, so its minperiod is `period + 1`. -/

structure RSIParams where
  period : ℕ
  oversold : ℚ
  overbought : ℚ
deriving Repr

structure RSISnap where
  rsi : Option ℚ
deriving Repr

def rsiMaxLookback (p : RSIParams) : ℕ := p.period + 1

/-- Body of `RSIStrategy.next` (lines 299-333): guard
`len(self.data) < period + 1`, pending-order check, NaN check on the RSI
line, then buy below `oversold` when flat, sell above `overbought` when
long. -/
def rsiNext (p : RSIParams) (env : BtEnv) (s : RSISnap) : Decision :=
  if env.dataLen < p.period + 1 then .hold
  else if env.hasOrder then .hold
  else
    match s.rsi with
    | none => .hold
    | some rv =>
      if !env.hasPosition then
        if rv < p.oversold then .buy else .hold
      else
        if rv > p.overbought then .sell else .hold

def rsiStep (p : RSIParams) (env : BtEnv) (s : RSISnap) : Decision :=
  if env.dataLen < rsiMaxLookback p then .hold
  else rsiNext p env s

/-! ### BollingerBandsStrategy (strategies.py lines 339-423)

Indicator: `BollingerBands(close, period, devfactor)` (minperiod
`period`).  Note: this strategy's `next()` has no warm-up guard of its
own; during warm-up it is simply never invoked by the framework. -/

structure BollingerParams where
  period : ℕ
  devfactor : ℚ
deriving Repr

/-- Lines read by `BollingerBandsStrategy.next`: `self.bollinger.lines.bot`
and `self.bollinger.lines.top`; the source does not NaN-check them. -/
structure BollingerSnap where
  top : ℚ
  bot : ℚ
deriving Repr

def bollingerMaxLookback (p : BollingerParams) : ℕ := p.period

/-- Body of `BollingerBandsStrategy.next` (lines 399-420): pending-order
check, then buy below the lower band when flat, sell above the upper band
when long.  No warm-up guard appears in the source body. -/
def bollingerNext (_p : BollingerParams) (env : BtEnv) (s : BollingerSnap) : Decision :=
  if env.hasOrder then .hold
  else if !env.hasPosition then
    if env.close0 < s.bot then .buy else .hold
  else
    if env.close0 > s.top then .sell else .hold

def bollingerStep (p : BollingerParams) (env : BtEnv) (s : BollingerSnap) : Decision :=
  if env.dataLen < bollingerMaxLookback p then .hold
  else bollingerNext p env s

/-! ### TripleMAStrategy (strategies.py lines 426-516)

Indicators: three SMAs of periods fast/mid/slow; strategy minperiod is
their maximum.  The `next()` body has no warm-up guard of its own. -/

structure TripleMAParams where
  fast_period : ℕ
  mid_period : ℕ
  slow_period : ℕ
deriving Repr

structure TripleMASnap where
  fast_ma : ℚ
  mid_ma : ℚ
  slow_ma : ℚ
deriving Repr

def tripleMaMaxLookback (p : TripleMAParams) : ℕ :=
  max p.fast_period (max p.mid_period p.slow_period)

/-- Body of `TripleMAStrategy.next` (lines 486-513): pending-order check;
buy when fast > mid > slow and flat; sell when fast < mid or mid < slow
and long. -/
def tripleMaNext (_p : TripleMAParams) (env : BtEnv) (s : TripleMASnap) : Decision :=
  if env.hasOrder then .hold
  else if !env.hasPosition then
    if s.fast_ma > s.mid_ma ∧ s.mid_ma > s.slow_ma then .buy else .hold
  else
    if s.fast_ma < s.mid_ma ∨ s.mid_ma < s.slow_ma then .sell else .hold

def tripleMaStep (p : TripleMAParams) (env : BtEnv) (s : TripleMASnap) : Decision :=
  if env.dataLen < tripleMaMaxLookback p then .hold
  else tripleMaNext p env s

/-! ### MeanReversionStrategy (strategies.py lines 519-605)

Indicator: `SMA(close, period)`.  No warm-up guard in the body. -/

structure MeanRevParams where
  period : ℕ
  threshold : ℚ
deriving Repr

structure MeanRevSnap where
  ma : ℚ
deriving Repr

def meanRevMaxLookback (p : MeanRevParams) : ℕ := p.period

/-- Body of `MeanReversionStrategy.next` (lines 575-602): pending-order
check; `deviation = (price - ma) / ma if ma > 0 else 0`; buy when the
deviation is below `-threshold` and flat, sell when above `threshold` and
long. -/
def meanRevNext (p : MeanRevParams) (env : BtEnv) (s : MeanRevSnap) : Decision :=
  if env.hasOrder then .hold
  else
    let deviation : ℚ := if s.ma > 0 then (env.close0 - s.ma) / s.ma else 0
    if !env.hasPosition then
      if deviation < -p.threshold then .buy else .hold
    else
      if deviation > p.threshold then .sell else .hold

def meanRevStep (p : MeanRevParams) (env : BtEnv) (s : MeanRevSnap) : Decision :=
  if env.dataLen < meanRevMaxLookback p then .hold
  else meanRevNext p env s

/-! ### VCPStrategy (strategies.py lines 608-757)

Indicators: `ATR(data, lookback)` (true range needs the previous close,
then a `lookback`-period smoothing: minperiod `lookback + 1`),
`SMA(atr, lookback)` (adds `lookback - 1`: minperiod `2 * lookback`),
`SMA(volume, lookback)` and `Highest(high, lookback)` (minperiod
`lookback`). -/

structure VCPParams where
  lookback : ℕ
  contraction_ratio : ℚ
  volume_ratio : ℚ
  breakout_threshold : ℚ
deriving Repr

/-- Lines read by `VCPStrategy.next`.  `atr`, `sma_volume` and `atr_sma`
are NaN-checked in the source (`pd.isna`), so they are `Option ℚ`;
`highest` is not.  `recentLow` models `Lowest(low, lookback)[0]`,
instantiated inside `next()` in the sell branch and both NaN-checked and
guarded by try/except there. -/
structure VCPSnap where
  atr : Option ℚ
  atr_sma : Option ℚ
  sma_volume : Option ℚ
  highest : ℚ
  recentLow : Option ℚ
deriving Repr

def vcpMaxLookback (p : VCPParams) : ℕ :=
  max (max (p.lookback + 1) (2 * p.lookback)) p.lookback

/-- Body of `VCPStrategy.next` (lines 676-754): pending-order check; guard
`len(self.data) < lookback * 2`; NaN / non-positive checks on ATR, average
volume and average ATR; the three VCP entry conditions when flat; the
stop-loss / breakdown exits when long (falling back to the plain stop-loss
when the recent low is NaN or the computation fails). -/
def vcpNext (p : VCPParams) (env : BtEnv) (s : VCPSnap) : Decision :=
  if env.hasOrder then .hold
  else if env.dataLen < p.lookback * 2 then .hold
  else
    match s.atr, s.sma_volume, s.atr_sma with
    | some current_atr, some avg_volume, some avg_atr =>
      if current_atr ≤ 0 ∨ avg_volume ≤ 0 ∨ avg_atr ≤ 0 then .hold
      else
        let current_price := env.close0
        let current_volume := env.volume0
        let recent_high := s.highest
        let volatility_contracted := current_atr < avg_atr * p.contraction_ratio
        let volume_contracted :=
          if avg_volume > 0 then current_volume < avg_volume * p.volume_ratio else False
        let price_breakout := current_price > recent_high * p.breakout_threshold
        if !env.hasPosition then
          if volatility_contracted ∧ volume_contracted ∧ price_breakout then .buy else .hold
        else
          if p.lookback ≤ env.dataLen then
            match s.recentLow with
            | some recent_low =>
              if recent_low > 0 then
                let stop_loss := current_price < env.positionPrice * (92 / 100)
                let break_down := current_price < recent_low * (98 / 100)
                if stop_loss ∨ break_down then .sell else .hold
              else
                if current_price < env.positionPrice * (92 / 100) then .sell else .hold
            | none =>
              if current_price < env.positionPrice * (92 / 100) then .sell else .hold
          else .hold
    | _, _, _ => .hold

def vcpStep (p : VCPParams) (env : BtEnv) (s : VCPSnap) : Decision :=
  if env.dataLen < vcpMaxLookback p then .hold
  else vcpNext p env s

/-! ### CandlestickStrategy (strategies.py lines 760-957)

This strategy declares no indicator lines, so its backtrader minperiod is
the trivial 1 (the data feed itself).  `detect_pattern` works from the
current and previous bar's OHLC. -/

structure CandleParams where
  pattern_type : String
  confirmation_period : ℕ
  min_body_ratio : ℚ
  min_shadow_ratio : ℚ
deriving Repr

/-- The value `self.data.close(-confirmation_period)` read in the buy confirmation
(lines 919-939); the source wraps it in try/except, falling back and
finally skipping the trade on IndexError/TypeError. -/
structure CandleSnap where
  prevCloseConfirm : Except Unit ℚ
deriving Repr

def candleMaxLookback (_p : CandleParams) : ℕ := 1

/-- Translation of `CandlestickStrategy.detect_pattern` (lines 786-863): returns the
first matching pattern name among hammer, engulfing and doji, or none.
The source also computes `body1`/`range1` from the previous bar but never
uses them. -/
def detectPattern (p : CandleParams) (env : BtEnv) : Option String :=
  if env.dataLen < 2 then none
  else
    let open0 := env.open0
    let close0 := env.close0
    let high0 := env.high0
    let low0 := env.low0
    let open1 := env.openPrev
    let close1 := env.closePrev
    let body0 := |close0 - open0|
    let range0 := high0 - low0
    let hammer : List String :=
      if range0 > 0 then
        let upper_shadow := high0 - max open0 close0
        let lower_shadow := min open0 close0 - low0
        let body_ratio := if range0 > 0 then body0 / range0 else 0
        if lower_shadow ≥ body0 * p.min_shadow_ratio ∧
            upper_shadow ≤ body0 * (1 / 2) ∧
            body_ratio < p.min_body_ratio then
          if close1 > open1 then ["bullish_hammer"] else ["bearish_hammer"]
        else []
      else []
    let engulfing : List String :=
      (if close1 < open1 ∧ close0 > open0 ∧ open0 < close1 ∧ close0 > open1 then
        ["bullish_engulfing"] else []) ++
      (if close1 > open1 ∧ close0 < open0 ∧ open0 > close1 ∧ close0 < open1 then
        ["bearish_engulfing"] else [])
    let doji : List String :=
      if range0 > 0 then
        if body0 / range0 < 1 / 10 then ["doji"] else []
      else []
    (hammer ++ engulfing ++ doji).head?

/-- Body of `CandlestickStrategy.next` (lines 898-954): pending-order
check; detect a pattern; when flat, buy on a bullish pattern whose name
matches `pattern_type` (`'all'` or a `startswith` match) once the close
exceeds the close `confirmation_period` bars ago; when long, sell on a
bearish pattern or on a 5% stop-loss. -/
def candleNext (p : CandleParams) (env : BtEnv) (s : CandleSnap) : Decision :=
  if env.hasOrder then .hold
  else
    let pattern := detectPattern p env
    if !env.hasPosition then
      match pattern with
      | none => .hold
      | some pat =>
        if (pat = "bullish_hammer" ∨ pat = "bullish_engulfing" ∨ pat = "doji") ∧
            (p.pattern_type = "all" ∨ pat.startsWith p.pattern_type) then
          if p.confirmation_period < env.dataLen then
            match s.prevCloseConfirm with
            | .ok prev_close => if env.close0 > prev_close then .buy else .hold
            | .error _ => .hold
          else .hold
        else .hold
    else
      match pattern with
      | some pat =>
        if pat = "bearish_hammer" ∨ pat = "bearish_engulfing" then .sell
        else if env.close0 < env.positionPrice * (95 / 100) then .sell
        else .hold
      | none =>
        if env.close0 < env.positionPrice * (95 / 100) then .sell else .hold

def candleStep (p : CandleParams) (env : BtEnv) (s : CandleSnap) : Decision :=
  if env.dataLen < candleMaxLookback p then .hold
  else candleNext p env s

/-! ### SwingTradingStrategy (strategies.py lines 960-1094)

Indicators: `SMA(close, 10)`, `SMA(close, trend_period)`,
`Highest(high, swing_period)`, `Lowest(low, swing_period)`. -/

structure SwingParams where
  trend_period : ℕ
  swing_period : ℕ
  pullback_ratio : ℚ
  profit_target : ℚ
  stop_loss : ℚ
deriving Repr

/-- Lines read by `SwingTradingStrategy.next`, plus `recentHighCalc`: the
outcome of `max([self.data.high[i] for i in range(1, max_idx) if i <
len(self.data)])` (line 1059).  In backtrader a positive index reads
forward in the preloaded buffer, so this either yields a value or raises
IndexError near the end of the feed; we model the outcome as `Except`. -/
structure SwingSnap where
  sma_fast : ℚ
  sma_slow : ℚ
  swing_high : ℚ
  swing_low : ℚ
  recentHighCalc : Except Unit ℚ
deriving Repr

def swingMaxLookback (p : SwingParams) : ℕ :=
  max 10 (max p.trend_period p.swing_period)

/-- Body of `SwingTradingStrategy.next` (lines 1029-1091).  The flat
branch reproduces the source's control flow exactly: the try block
computes `pullback` (or 0 when fewer than `swing_period + 1` bars) and
then falls through — the buy-signal check and `self.buy()` call are
indented inside the `except (IndexError, TypeError, ValueError)` handler
(lines 1063-1070), so they run only when the recent-high computation
raised.  The held branch sells on profit target, stop loss, trend
reversal, or a swing-high retest. -/
def swingNext (p : SwingParams) (env : BtEnv) (s : SwingSnap) : Decision :=
  if env.hasOrder then .hold
  else if env.dataLen < p.trend_period then .hold
  else
    let current_price := env.close0
    let uptrend := s.sma_fast > s.sma_slow
    if !env.hasPosition then
      if uptrend then
        let swing_low_price := s.swing_low
        let tryResult : Except Unit ℚ :=
          if p.swing_period + 1 ≤ env.dataLen then
            match s.recentHighCalc with
            | .ok recent_high =>
              .ok (if recent_high > 0 then (recent_high - current_price) / recent_high else 0)
            | .error e => .error e
          else .ok 0
        match tryResult with
        | .ok _pullback => .hold
        | .error _ =>
          let pullback : ℚ := 0
          if current_price ≤ swing_low_price * (102 / 100) ∨ pullback ≥ p.pullback_ratio
          then .buy else .hold
      else .hold
    else
      let buy_price := env.positionPrice
      let profit_pct := if buy_price > 0 then (current_price - buy_price) / buy_price else 0
      if profit_pct ≥ p.profit_target then .sell
      else if profit_pct ≤ -p.stop_loss then .sell
      else if !uptrend then .sell
      else if current_price ≥ s.swing_high * (98 / 100) then .sell
      else .hold

def swingStep (p : SwingParams) (env : BtEnv) (s : SwingSnap) : Decision :=
  if env.dataLen < swingMaxLookback p then .hold
  else swingNext p env s

/-! ### TrendFollowingStrategy (strategies.py lines 1097-1220)

Indicators: two SMAs and `ADX(data, adx_period)`; backtrader's ADX smooths
the directional-movement series twice over `adx_period` values, giving it
minperiod `2 * adx_period`.  The strategy keeps one piece of memory,
`self.highest_price`. -/

structure TrendParams where
  fast_period : ℕ
  slow_period : ℕ
  adx_period : ℕ
  adx_threshold : ℚ
  trailing_stop : ℚ
deriving Repr

structure TrendSnap where
  sma_fast : ℚ
  sma_slow : ℚ
  adx : ℚ
deriving Repr

/-- The field `self.highest_price` (None before the first fill, reset to None on a
completed sell in `notify_order`). -/
structure TrendMem where
  highest_price : Option ℚ
deriving Repr

def trendMaxLookback (p : TrendParams) : ℕ :=
  max (max p.fast_period p.slow_period) (2 * p.adx_period)

/-- Body of `TrendFollowingStrategy.next` (lines 1169-1217): pending-order
check; guard `len(self.data) < slow_period`; buy on trend-up + strong ADX
+ price above the fast SMA when flat; when long, update the running high
and sell on trend reversal, trailing-stop breach, or ADX weakening below
`0.8 * adx_threshold`. -/
def trendNext (p : TrendParams) (env : BtEnv) (s : TrendSnap) (m : TrendMem) :
    Decision × TrendMem :=
  if env.hasOrder then (.hold, m)
  else if env.dataLen < p.slow_period then (.hold, m)
  else
    let current_price := env.close0
    let trend_up := s.sma_fast > s.sma_slow
    let trend_strong := s.adx > p.adx_threshold
    if !env.hasPosition then
      if trend_up ∧ trend_strong ∧ current_price > s.sma_fast then (.buy, m)
      else (.hold, m)
    else
      let hp :=
        match m.highest_price with
        | none => current_price
        | some h => max h current_price
      let m2 : TrendMem := ⟨some hp⟩
      if !trend_up then (.sell, m2)
      else if hp ≠ 0 ∧ current_price < hp * (1 - p.trailing_stop) then (.sell, m2)
      else if s.adx < p.adx_threshold * (8 / 10) then (.sell, m2)
      else (.hold, m2)

def trendStep (p : TrendParams) (env : BtEnv) (s : TrendSnap) (m : TrendMem) : Decision :=
  if env.dataLen < trendMaxLookback p then .hold
  else (trendNext p env s m).1

/-! ### PyramidAddStrategy (strategies.py lines 1223-1437)

Indicator: `SMA(close, ma_period)`.  Memory: `self.entry_prices`,
`self.entry_sizes` (appended on each completed buy in `notify_order`) and
`self.highest_price` (the position's running high-water-mark). -/

structure PyramidParams where
  initial_position_size : ℚ
  stop_loss_pct : ℚ
  add_position_threshold : ℚ
  ma_period : ℕ
  high_open_threshold : ℚ
deriving Repr

structure PyramidSnap where
  ma : ℚ
deriving Repr

structure PyramidMem where
  entry_prices : List ℚ
  entry_sizes : List ℚ
  highest_price : Option ℚ
deriving Repr

/-- The decision of `PyramidAddStrategy.next`, tagged with which branch
produced it (the source logs a distinct message per branch): the initial
entry, an add-on buy, the trailing high-water-mark stop (lines 1387-1393)
or the hard stop from the first entry price (lines 1395-1401). -/
inductive PyramidAction where
  | hold
  | openBuy (size : ℤ)
  | addBuy (size : ℤ)
  | sellTrailing (size : ℤ)
  | sellHardStop (size : ℤ)
deriving DecidableEq, Repr

/-- Python's `int()` applied to a rational: truncation toward zero. -/
def pyInt (q : ℚ) : ℤ := if 0 ≤ q then ⌊q⌋ else ⌈q⌉

/-- The update `self.highest_price = current_price if self.highest_price
is None else max(self.highest_price, current_price)` (lines 1377-1380). -/
def pyramidHighWaterMark (m : PyramidMem) (current_price : ℚ) : ℚ :=
  match m.highest_price with
  | none => current_price
  | some h => max h current_price

def pyramidMaxLookback (p : PyramidParams) : ℕ := p.ma_period

/-- Body of `PyramidAddStrategy.next` (lines 1329-1434): guard
`len(self.data) < ma_period + 1`; pending-order check; open an initial
5%-of-equity position on good sentiment + gap-up open when flat.  When
holding with recorded entries: update the high-water-mark, ignore
non-positive position sizes, then check — in this order — the trailing
stop from the high-water-mark, the hard stop from the first entry price,
and the add-on conditions (first add keyed to the first entry price,
later adds keyed to the latest entry price).  Each of the first two
matches issues a full-size sell and returns at once, so on a bar where
both stop conditions hold, the trailing stop fires and the hard-stop
branch is never evaluated. -/
def pyramidNext (p : PyramidParams) (env : BtEnv) (s : PyramidSnap) (m : PyramidMem) :
    PyramidAction × PyramidMem :=
  if env.dataLen < p.ma_period + 1 then (.hold, m)
  else if env.hasOrder then (.hold, m)
  else
    let current_price := env.close0
    let current_open := env.open0
    let prev_close := if 1 < env.dataLen then env.closePrev else current_price
    let market_sentiment_good := current_price > s.ma
    let high_open := current_open > prev_close * (1 + p.high_open_threshold)
    if !env.hasPosition then
      if market_sentiment_good ∧ high_open then
        let total_value := env.totalValue
        let position_value := total_value * p.initial_position_size
        let size := pyInt (position_value / current_price)
        if 0 < size then (.openBuy size, m) else (.hold, m)
      else (.hold, m)
    else
      match m.entry_prices with
      | [] => (.hold, m)
      | initial :: rest =>
        let initial_entry_price := initial
        let latest_entry_price := (initial :: rest).getLast (List.cons_ne_nil _ _)
        let hp := pyramidHighWaterMark m current_price
        let m2 : PyramidMem := { m with highest_price := some hp }
        if env.positionSize ≤ 0 then (.hold, m2)
        else if hp ≠ 0 ∧ current_price < hp * (1 - p.stop_loss_pct) then
          (.sellTrailing env.positionSize, m2)
        else if current_price < initial_entry_price * (1 - p.stop_loss_pct) then
          (.sellHardStop env.positionSize, m2)
        else if current_price > initial_entry_price * (1 + p.add_position_threshold) then
          if rest = [] then
            let total_value := env.totalValue
            let position_value := total_value * p.initial_position_size
            let size := pyInt (position_value / current_price)
            if 0 < size then (.addBuy size, m2) else (.hold, m2)
          else
            if current_price > latest_entry_price * (1 + p.add_position_threshold) then
              let total_value := env.totalValue
              let position_value := total_value * p.initial_position_size
              let size := pyInt (position_value / current_price)
              if 0 < size then (.addBuy size, m2) else (.hold, m2)
            else (.hold, m2)
        else (.hold, m2)

/-- Translation of `PyramidAddStrategy.notify_order`, completed-sell branch (lines
1305-1318): after a completed sell, when the position is now empty
(`if not self.position:`), the strategy resets `entry_prices`,
`entry_sizes` and `highest_price`.  `positionSizeAfter` is
`self.position.size` after the fill. -/
def pyramidNotifySellCompleted (m : PyramidMem) (positionSizeAfter : ℤ) : PyramidMem :=
  if positionSizeAfter = 0 then
    { entry_prices := [], entry_sizes := [], highest_price := none }
  else m

def pyramidActionToDecision : PyramidAction → Decision
  | .hold => .hold
  | .openBuy _ => .buy
  | .addBuy _ => .buy
  | .sellTrailing _ => .sell
  | .sellHardStop _ => .sell

def pyramidStep (p : PyramidParams) (env : BtEnv) (s : PyramidSnap) (m : PyramidMem) :
    Decision :=
  if env.dataLen < pyramidMaxLookback p then .hold
  else pyramidActionToDecision (pyramidNext p env s m).1

/-! ### The strategy registry (strategies.py lines 1441-1453)

`STRATEGY_REGISTRY` maps a name to a strategy class.  Each entry here
packages the strategy's parameter, snapshot and memory types, the largest
lookback any of its indicator lines requires, and the framework-driven
per-bar step (`prenext` no-op before the minperiod, then the translated
`next`). -/

structure RegisteredStrategy : Type 1 where
  Params : Type
  Snap : Type
  Mem : Type
  maxLookback : Params → ℕ
  step : Params → BtEnv → Snap → Mem → Decision

def macrossRegistered : RegisteredStrategy :=
  { Params := MACrossParams, Snap := MACrossSnap, Mem := Unit,
    maxLookback := macrossMaxLookback,
    step := fun p env s _ => macrossStep p env s }

def macdRegistered : RegisteredStrategy :=
  { Params := MACDParams, Snap := MACDSnap, Mem := Unit,
    maxLookback := macdMaxLookback,
    step := fun p env s _ => macdStep p env s }

def rsiRegistered : RegisteredStrategy :=
  { Params := RSIParams, Snap := RSISnap, Mem := Unit,
    maxLookback := rsiMaxLookback,
    step := fun p env s _ => rsiStep p env s }

def bollingerRegistered : RegisteredStrategy :=
  { Params := BollingerParams, Snap := BollingerSnap, Mem := Unit,
    maxLookback := bollingerMaxLookback,
    step := fun p env s _ => bollingerStep p env s }

def tripleMaRegistered : RegisteredStrategy :=
  { Params := TripleMAParams, Snap := TripleMASnap, Mem := Unit,
    maxLookback := tripleMaMaxLookback,
    step := fun p env s _ => tripleMaStep p env s }

def meanRevRegistered : RegisteredStrategy :=
  { Params := MeanRevParams, Snap := MeanRevSnap, Mem := Unit,
    maxLookback := meanRevMaxLookback,
    step := fun p env s _ => meanRevStep p env s }

def vcpRegistered : RegisteredStrategy :=
  { Params := VCPParams, Snap := VCPSnap, Mem := Unit,
    maxLookback := vcpMaxLookback,
    step := fun p env s _ => vcpStep p env s }

def candleRegistered : RegisteredStrategy :=
  { Params := CandleParams, Snap := CandleSnap, Mem := Unit,
    maxLookback := candleMaxLookback,
    step := fun p env s _ => candleStep p env s }

def swingRegistered : RegisteredStrategy :=
  { Params := SwingParams, Snap := SwingSnap, Mem := Unit,
    maxLookback := swingMaxLookback,
    step := fun p env s _ => swingStep p env s }

def trendRegistered : RegisteredStrategy :=
  { Params := TrendParams, Snap := TrendSnap, Mem := TrendMem,
    maxLookback := trendMaxLookback,
    step := trendStep }

def pyramidRegistered : RegisteredStrategy :=
  { Params := PyramidParams, Snap := PyramidSnap, Mem := PyramidMem,
    maxLookback := pyramidMaxLookback,
    step := pyramidStep }

def STRATEGY_REGISTRY : List (String × RegisteredStrategy) :=
  [ ("macross", macrossRegistered),
    ("macd", macdRegistered),
    ("rsi", rsiRegistered),
    ("bollinger", bollingerRegistered),
    ("triple_ma", tripleMaRegistered),
    ("mean_reversion", meanRevRegistered),
    ("vcp", vcpRegistered),
    ("candlestick", candleRegistered),
    ("swing", swingRegistered),
    ("trend_following", trendRegistered),
    ("pyramid_add", pyramidRegistered) ]

/-- C1: for every strategy in the registry and every input, while the
current bar count is below the maximum lookback required by the
strategy's indicators, the per-bar step emits Hold only — no Buy or Sell
order is submitted during the warm-up window. -/
theorem registry_warmup_emits_hold :
    ∀ e ∈ STRATEGY_REGISTRY, ∀ (p : e.2.Params) (env : BtEnv) (s : e.2.Snap) (m : e.2.Mem),
      env.dataLen < e.2.maxLookback p → e.2.step p env s m = Decision.hold := by
  intro e he
  fin_cases he <;> intro p env s m h <;>
    simp_all [macrossRegistered, macrossStep, macdRegistered, macdStep,
      rsiRegistered, rsiStep, bollingerRegistered, bollingerStep,
      tripleMaRegistered, tripleMaStep, meanRevRegistered, meanRevStep,
      vcpRegistered, vcpStep, candleRegistered, candleStep,
      swingRegistered, swingStep, trendRegistered, trendStep,
      pyramidRegistered, pyramidStep]

/-- A bar-3 environment during the default MA-cross warm-up (the default
slow period is 20, so the warm-up extends to bar 21). -/
def envWarmup : BtEnv :=
  { dataLen := 3, open0 := 10, high0 := 11, low0 := 9, close0 := 10,
    volume0 := 1000, openPrev := 10, highPrev := 11, lowPrev := 9,
    closePrev := 10, hasOrder := false, hasPosition := false,
    positionPrice := 0, positionSize := 0, totalValue := 100000 }

/-- Witness for C1: the `macross` registry entry with its default
parameters, at bar 3 of the warm-up window, emits Hold. -/
theorem registry_warmup_emits_hold_witness :
    ("macross", macrossRegistered) ∈ STRATEGY_REGISTRY ∧
      envWarmup.dataLen < macrossRegistered.maxLookback ⟨5, 20⟩ ∧
      macrossRegistered.step ⟨5, 20⟩ envWarmup ⟨10, 10, some 0⟩ () = Decision.hold :=
  ⟨by simp [STRATEGY_REGISTRY], by decide,
    registry_warmup_emits_hold ("macross", macrossRegistered)
      (by simp [STRATEGY_REGISTRY]) ⟨5, 20⟩ envWarmup ⟨10, 10, some 0⟩ () (by decide)⟩

/-- A concrete flat bar for the swing strategy, past warm-up and in an
uptrend. -/
def envSwingFlat : BtEnv :=
  { dataLen := 25, open0 := 10, high0 := 11, low0 := 9, close0 := 10,
    volume0 := 1000, openPrev := 10, highPrev := 11, lowPrev := 9,
    closePrev := 10, hasOrder := false, hasPosition := false,
    positionPrice := 0, positionSize := 0, totalValue := 100000 }

/-- A concrete swing snapshot whose recent-high computation succeeded. -/
def snapSwingOk : SwingSnap :=
  { sma_fast := 11, sma_slow := 10, swing_high := 12, swing_low := 9,
    recentHighCalc := Except.ok 12 }

/-- C3: in SwingTradingStrategy, whenever the flat-position entry path
runs and the recent-high computation does not raise, no Buy order is
submitted — the buy-signal check and `buy()` call sit inside the
exception handler, so on every normal (non-raising) bar the strategy
holds. -/
theorem swing_flat_entry_holds_without_exception :
    ∀ (p : SwingParams) (env : BtEnv) (s : SwingSnap) (rh : ℚ),
      env.hasPosition = false →
      s.recentHighCalc = Except.ok rh →
      swingNext p env s = Decision.hold := by
  intro p env s rh hflat hok
  unfold swingNext
  by_cases h1 : env.hasOrder
  · simp [h1]
  · by_cases h2 : env.dataLen < p.trend_period
    · simp [h1, h2]
    · by_cases h3 : s.sma_fast > s.sma_slow
      · by_cases h4 : p.swing_period + 1 ≤ env.dataLen
        · simp [h1, h2, hflat, h3, h4, hok]
        · simp [h1, h2, hflat, h3, h4]
      · simp [h1, h2, hflat, h3]

/-- Witness for C3: a concrete flat bar in an uptrend whose recent-high
computation succeeded; the swing step holds. -/
theorem swing_flat_entry_holds_without_exception_witness :
    envSwingFlat.hasPosition = false ∧
      snapSwingOk.recentHighCalc = Except.ok 12 ∧
      swingNext ⟨20, 10, 5 / 100, 10 / 100, 5 / 100⟩ envSwingFlat snapSwingOk = Decision.hold :=
  ⟨rfl, rfl,
    swing_flat_entry_holds_without_exception ⟨20, 10, 5 / 100, 10 / 100, 5 / 100⟩
      envSwingFlat snapSwingOk 12 rfl rfl⟩

/-- C8: in PyramidAddStrategy, on any holding bar where both the trailing
high-water-mark stop and the hard stop from the first entry price are
triggered, the trailing-stop exit fires (the hard-stop branch is not
reached); and a completed sell that empties the position clears all
entry-price memory and the high-water-mark. -/
theorem pyramid_trailing_precedes_hard_stop :
    (∀ (p : PyramidParams) (env : BtEnv) (s : PyramidSnap) (m : PyramidMem)
        (initial : ℚ) (rest : List ℚ),
      m.entry_prices = initial :: rest →
      env.hasOrder = false →
      env.hasPosition = true →
      p.ma_period + 1 ≤ env.dataLen →
      0 < env.positionSize →
      pyramidHighWaterMark m env.close0 ≠ 0 →
      env.close0 < pyramidHighWaterMark m env.close0 * (1 - p.stop_loss_pct) →
      env.close0 < initial * (1 - p.stop_loss_pct) →
      (pyramidNext p env s m).1 = PyramidAction.sellTrailing env.positionSize) ∧
    (∀ m : PyramidMem, pyramidNotifySellCompleted m 0 =
      { entry_prices := [], entry_sizes := [], highest_price := none }) := by
  constructor
  · intro p env s m initial rest hmem horder hpos hlen hsize hwm htrail _hhard
    unfold pyramidNext
    rw [hmem]
    have h1 : ¬ env.dataLen < p.ma_period + 1 := by omega
    have h2 : ¬ env.positionSize ≤ 0 := by omega
    simp [h1, horder, hpos, h2, hwm, htrail]
  · intro m
    unfold pyramidNotifySellCompleted
    simp

/-- Concrete holding state for the pyramid strategy in which both stop
conditions hold at once: one entry at 100, high-water-mark 120, price 90,
2% stop. -/
def envPyramidBothStops : BtEnv :=
  { dataLen := 30, open0 := 91, high0 := 92, low0 := 89, close0 := 90,
    volume0 := 1000, openPrev := 95, highPrev := 96, lowPrev := 94,
    closePrev := 95, hasOrder := false, hasPosition := true,
    positionPrice := 100, positionSize := 3, totalValue := 100000 }

def memPyramidBothStops : PyramidMem :=
  { entry_prices := [100], entry_sizes := [5 / 100], highest_price := some 120 }

/-- The witness's high-water-mark is nonzero. -/
lemma pyramidHwmNeZero :
    pyramidHighWaterMark memPyramidBothStops envPyramidBothStops.close0 ≠ 0 := by
  norm_num [pyramidHighWaterMark, memPyramidBothStops, envPyramidBothStops]

/-- The witness's trailing-stop condition holds: 90 < 120 · (1 − 2%). -/
lemma pyramidTrailHit :
    envPyramidBothStops.close0 <
      pyramidHighWaterMark memPyramidBothStops envPyramidBothStops.close0 * (1 - 2 / 100) := by
  norm_num [pyramidHighWaterMark, memPyramidBothStops, envPyramidBothStops]

/-- The witness's hard-stop condition holds: 90 < 100 · (1 − 2%). -/
lemma pyramidHardHit : envPyramidBothStops.close0 < 100 * (1 - 2 / 100) := by
  norm_num [envPyramidBothStops]

/-- Witness for C8: with price 90, first entry 100 and high-water-mark
120 under a 2% stop, both stop conditions hold and the step issues the
trailing-stop sell; clearing after a full exit is instantiated as well. -/
theorem pyramid_trailing_precedes_hard_stop_witness :
    pyramidHighWaterMark memPyramidBothStops envPyramidBothStops.close0 ≠ 0 ∧
      envPyramidBothStops.close0 <
        pyramidHighWaterMark memPyramidBothStops envPyramidBothStops.close0 * (1 - 2 / 100) ∧
      envPyramidBothStops.close0 < 100 * (1 - 2 / 100) ∧
      (pyramidNext ⟨5 / 100, 2 / 100, 2 / 100, 20, 1 / 100⟩ envPyramidBothStops ⟨95⟩
          memPyramidBothStops).1 = PyramidAction.sellTrailing 3 ∧
      pyramidNotifySellCompleted memPyramidBothStops 0 =
        { entry_prices := [], entry_sizes := [], highest_price := none } :=
  ⟨pyramidHwmNeZero, pyramidTrailHit, pyramidHardHit,
    pyramid_trailing_precedes_hard_stop.1 ⟨5 / 100, 2 / 100, 2 / 100, 20, 1 / 100⟩
      envPyramidBothStops ⟨95⟩ memPyramidBothStops 100 [] rfl rfl rfl (by decide)
      (by decide) pyramidHwmNeZero pyramidTrailHit pyramidHardHit,
    pyramid_trailing_precedes_hard_stop.2 memPyramidBothStops⟩

/-! ### run_backtest (engine.py)

The orchestrator loads candles, builds a DataFrame, runs cerebro and
packages the result dict.  The claims below concern its data-loading
branches and the equity curve it returns. -/

/-- Every strategy appends one equity point at the top of its `next()`
(e.g. strategies.py lines 88-97).  backtrader invokes `next()` only on
bars where `len(self.data)` has reached the strategy's minperiod (the
maximum lookback of its indicator lines); earlier bars go to the no-op
`prenext()`.  For a run over `n` bars this gives the 0-based bar indices
at which a point is appended. -/
def strategyEquityCurve (minperiod n : ℕ) : List ℕ :=
  (List.range n).filter (fun i => minperiod ≤ i + 1)

/-- engine.py lines 307-357: `run_backtest` reads the strategy's
`equity_curve` list and returns it as-is when nonempty; when it is empty
the engine builds a linearly interpolated fallback curve with one point
per DataFrame row (`for i, (idx, row) in enumerate(df.iterrows())`). -/
def engineEquityCurve (minperiod n : ℕ) : List ℕ :=
  let ec := strategyEquityCurve minperiod n
  if ec.isEmpty then List.range n else ec

/-- A strategy whose indicators need `m ≥ 1` bars appends `n + 1 - m`
equity points over an `n`-bar run (truncated subtraction: none before the
minperiod is reached). -/
lemma strategyEquityCurve_length (m n : ℕ) (hm : 1 ≤ m) :
    (strategyEquityCurve m n).length = n + 1 - m := by
  induction n with
  | zero => simp [strategyEquityCurve]; omega
  | succ n ih =>
    unfold strategyEquityCurve at ih ⊢
    rw [List.range_succ, List.filter_append]
    by_cases h : m ≤ n + 1 <;> simp [h, ih] <;> omega

/-- C2 counterexample: with the default MA-cross parameters (slow period
20, so minperiod 21) a completed 22-bar run returns an equity curve of
length 2, not one point per input bar (22). -/
theorem equity_curve_length_counterexample :
    (engineEquityCurve (macrossMaxLookback ⟨5, 20⟩) 22).length = 2 ∧ (2 : ℕ) ≠ 22 := by
  constructor
  · rfl
  · decide

/-- C2 amended: for every completed run, the returned equity curve has
`data_points + 1 - minperiod` points when the series reaches the
strategy's minperiod (one per bar from the first bar all indicators are
warm), and `data_points` points otherwise (the engine's interpolated
fallback). -/
theorem engine_equity_curve_length (m n : ℕ) (hm : 1 ≤ m) :
    (engineEquityCurve m n).length = if m ≤ n then n + 1 - m else n := by
  unfold engineEquityCurve
  have hlen := strategyEquityCurve_length m n hm
  by_cases h : m ≤ n
  · have : ¬ (strategyEquityCurve m n).isEmpty := by
      rw [List.isEmpty_iff_length_eq_zero, hlen]
      omega
    simp [this, hlen, h]
  · have : (strategyEquityCurve m n).isEmpty := by
      rw [List.isEmpty_iff_length_eq_zero, hlen]
      omega
    simp [this, h]

/-- Witness for the amended C2: minperiod 21 (default MA cross) over 22
bars yields 2 equity points. -/
theorem engine_equity_curve_length_witness :
    1 ≤ 21 ∧ (engineEquityCurve 21 22).length = if 21 ≤ 22 then 22 + 1 - 21 else 22 :=
  ⟨by decide, engine_equity_curve_length 21 22 (by decide)⟩

/-- The error conditions of `run_backtest`'s data-loading branches
(engine.py lines 50-148), as a structured error type mirroring what each
raised ValueError message contains.  Only the daily branch's
in-range-empty error for an instrument that has data carries the
instrument's available date range (lines 96-100); the minute branch's
error (line 148) repeats the requested range and carries no
available-range information, hence its constructor has no range fields. -/
inductive BacktestError where
  | instrumentNotFound
  | noDailyDataInRange (earliest latest : ℕ)
  | noDailyData
  | noMinuteDataInRange
deriving DecidableEq, Repr

/-- Whether an error's message reports the instrument's available date
range (the claim's "reported with the available date range"). -/
def reportsAvailableRange : BacktestError → Bool
  | .noDailyDataInRange _ _ => true
  | _ => false

/-- engine.py lines 57-102 (daily branch).  `allCandles` is the
instrument's full list of daily candle dates, ordered by date (the source
queries with `.order_by('date')`); dates are day ordinals.  The query
filters to `date >= start_date` and `date <= effective_end_date` where
`effective_end_date = min(end_date, today)` (lines 64-77).  When the
filtered set is empty, the source raises: with the `earliest`/`latest`
dates of all the instrument's candles when any exist (lines 91-100), and
a plain "no data, sync first" error otherwise (line 102). -/
def fetchDailyCandles (allCandles : List ℕ) (startDate endDate today : ℕ) :
    Except BacktestError (List ℕ) :=
  let effectiveEnd := min endDate today
  let candles := allCandles.filter (fun d => startDate ≤ d ∧ d ≤ effectiveEnd)
  match candles with
  | [] =>
    match allCandles with
    | [] => .error .noDailyData
    | h :: t => .error (.noDailyDataInRange h ((h :: t).getLast (List.cons_ne_nil _ _)))
  | _ :: _ => .ok candles

/-- engine.py lines 116-148 (minute branch).  `allCandles` is the
instrument's list of minute-candle timestamps for the requested interval,
ordered by datetime; the query filters to `datetime >= start_datetime`
and `datetime <= end_datetime` with no clipping.  When the filtered set
is empty, line 148 raises
`ValueError(f"No ... minute candle data found for ... in range ...")` —
a message that repeats the requested range but does not look up or
report the instrument's available date range. -/
def fetchMinuteCandles (allCandles : List ℕ) (startDate endDate : ℕ) :
    Except BacktestError (List ℕ) :=
  let candles := allCandles.filter (fun d => startDate ≤ d ∧ d ≤ endDate)
  match candles with
  | [] => .error .noMinuteDataInRange
  | _ :: _ => .ok candles

/-- C6 counterexample: an instrument whose minute data lives on days
5-7, queried for days 10-20, fails with the minute-branch error — which
does not report the instrument's available date range, contradicting the
claim for minute granularity. -/
theorem minute_error_lacks_available_range_counterexample :
    ([5, 6, 7].filter (fun d => 10 ≤ d ∧ d ≤ 20) = ([] : List ℕ)) ∧
      ([5, 6, 7] : List ℕ) ≠ [] ∧
      fetchMinuteCandles [5, 6, 7] 10 20 = .error .noMinuteDataInRange ∧
      reportsAvailableRange .noMinuteDataInRange = false := by
  refine ⟨by decide, by decide, ?_, rfl⟩
  rfl

/-- C6 amended: for every instrument that exists but has no candle rows
in the requested date range, `run_backtest` fails with an error rather
than returning a result over zero bars, for both granularities; the
error reports the instrument's available date range for daily data
(when the instrument has any candles), while the minute-branch error
reports only the requested range. -/
theorem no_candles_in_range_errors :
    ∀ (allDaily allMinute : List ℕ) (startDate endDate today : ℕ),
      (allDaily.filter (fun d => startDate ≤ d ∧ d ≤ endDate) = [] →
        (∃ e, fetchDailyCandles allDaily startDate endDate today = .error e) ∧
        (∀ h t, allDaily = h :: t →
          fetchDailyCandles allDaily startDate endDate today =
            .error (.noDailyDataInRange h ((h :: t).getLast (List.cons_ne_nil _ _))))) ∧
      (allMinute.filter (fun d => startDate ≤ d ∧ d ≤ endDate) = [] →
        fetchMinuteCandles allMinute startDate endDate = .error .noMinuteDataInRange ∧
        reportsAvailableRange .noMinuteDataInRange = false) := by
  intro allDaily allMinute startDate endDate today
  constructor
  · intro hempty
    have heff : allDaily.filter (fun d => startDate ≤ d ∧ d ≤ min endDate today) = [] := by
      rw [List.filter_eq_nil_iff] at hempty ⊢
      intro a ha
      have := hempty a ha
      simp only [decide_eq_true_eq] at this ⊢
      omega
    constructor
    · cases hall : allDaily with
      | nil =>
        refine ⟨.noDailyData, ?_⟩
        subst hall
        simp [fetchDailyCandles]
      | cons h t =>
        refine ⟨.noDailyDataInRange h ((h :: t).getLast (List.cons_ne_nil _ _)), ?_⟩
        subst hall
        simp only [fetchDailyCandles, heff]
    · intro h t hall
      subst hall
      simp only [fetchDailyCandles, heff]
  · intro hempty
    refine ⟨?_, rfl⟩
    simp only [fetchMinuteCandles, hempty]

/-- Witness for the amended C6: an instrument with candles on days 5, 6,
7 queried for days 10 to 20 (today = 15): the daily branch reports the
available range 5 to 7, the minute branch errors without it. -/
theorem no_candles_in_range_errors_witness :
    ([5, 6, 7].filter (fun d => 10 ≤ d ∧ d ≤ 20) = ([] : List ℕ)) ∧
      fetchDailyCandles [5, 6, 7] 10 20 15 =
        .error (.noDailyDataInRange 5 ((5 :: [6, 7]).getLast (List.cons_ne_nil _ _))) ∧
      fetchMinuteCandles [5, 6, 7] 10 20 = .error .noMinuteDataInRange ∧
      reportsAvailableRange .noMinuteDataInRange = false :=
  ⟨by decide,
    ((no_candles_in_range_errors [5, 6, 7] [5, 6, 7] 10 20 15).1 (by decide)).2 5 [6, 7] rfl,
    ((no_candles_in_range_errors [5, 6, 7] [5, 6, 7] 10 20 15).2 (by decide)).1,
    ((no_candles_in_range_errors [5, 6, 7] [5, 6, 7] 10 20 15).2 (by decide)).2⟩

/-- engine.py lines 60-77 (daily branch): the end boundary of the daily
candle query is clipped to today when it lies in the future
(`effective_end_date = min(end_date, today)`), and the future-date
warning is printed in exactly that case.  Returns (effective end boundary,
warning recorded). -/
def dailyEffectiveEnd (endDate today : ℕ) : ℕ × Bool :=
  (min endDate today, decide (today < endDate))

/-- engine.py lines 116-148 (minute branch): the end boundary is converted
to an end-of-day datetime (`dt.combine(end_date, dt.max.time())`) and used
as-is in the `CandleMinute` query; the branch contains no comparison
against "now" and records no warning. -/
def minuteEffectiveEnd (endDate _today : ℕ) : ℕ × Bool :=
  (endDate, false)

/-- C7 counterexample: with today = day 100 and a requested end of day
200, the minute branch queries up to day 200 with no warning — the end
boundary is not clipped to today and no warning is recorded. -/
theorem future_end_clipping_counterexample :
    minuteEffectiveEnd 200 100 = (200, false) ∧
      minuteEffectiveEnd 200 100 ≠ (min 200 100, true) := by
  constructor
  · rfl
  · decide

/-- C7 amended: a future end date is clipped to today with a warning in
the daily branch only; the minute branch uses the raw end boundary and
records no warning. -/
theorem future_end_clipped_daily_only :
    ∀ endDate today : ℕ, today < endDate →
      dailyEffectiveEnd endDate today = (today, true) ∧
      minuteEffectiveEnd endDate today = (endDate, false) := by
  intro endDate today h
  refine ⟨?_, rfl⟩
  unfold dailyEffectiveEnd
  rw [Nat.min_eq_right (Nat.le_of_lt h)]
  simp [h]

/-- Witness for the amended C7 at end = 200, today = 100. -/
theorem future_end_clipped_daily_only_witness :
    (100 : ℕ) < 200 ∧
      dailyEffectiveEnd 200 100 = (100, true) ∧
      minuteEffectiveEnd 200 100 = (200, false) :=
  ⟨by decide, future_end_clipped_daily_only 200 100 (by decide)⟩

/-! ### batch_backtest_all_strategies (optimizer.py lines 181-263) -/

/-- optimizer.py lines 219-261: the nested loop over
`strategies_to_test` and each strategy's `generate_param_combinations`.
`run` stands for the `run_backtest` call, which may raise (modelled as
`Except`): a success is tagged with its strategy name and parameters and
appended to `results`; an exception is caught, logged and skipped with
`continue`. -/
def batch_backtest_all_strategies {S P R E : Type}
    (strategies_to_test : List S) (grid : S → List P) (run : S → P → Except E R) :
    List (S × P × R) :=
  strategies_to_test.foldl
    (fun acc strategy_name =>
      (grid strategy_name).foldl
        (fun results params =>
          match run strategy_name params with
          | .ok r => results ++ [(strategy_name, params, r)]
          | .error _ => results)
        acc)
    []

/-- The inner parameter loop appends exactly the successful combinations,
in order, to whatever was accumulated before it. -/
lemma batch_inner_loop_eq {S P R E : Type} (run : S → P → Except E R) (s : S) :
    ∀ (l : List P) (acc : List (S × P × R)),
      l.foldl
        (fun results params =>
          match run s params with
          | .ok r => results ++ [(s, params, r)]
          | .error _ => results)
        acc =
      acc ++ l.filterMap (fun params =>
        match run s params with
        | .ok r => some (s, params, r)
        | .error _ => none) := by
  intro l
  induction l with
  | nil => simp
  | cons p t ih =>
    intro acc
    simp only [List.foldl_cons, List.filterMap_cons]
    cases run s p with
    | ok r => rw [ih]; simp
    | error e => rw [ih]

/-- The outer strategy loop accumulates the successful combinations of
every strategy in order. -/
lemma batch_outer_loop_eq {S P R E : Type} (grid : S → List P) (run : S → P → Except E R) :
    ∀ (ts : List S) (acc : List (S × P × R)),
      ts.foldl
        (fun acc2 s =>
          (grid s).foldl
            (fun results params =>
              match run s params with
              | .ok r => results ++ [(s, params, r)]
              | .error _ => results)
            acc2)
        acc =
      acc ++ (ts.flatMap fun s => (grid s).map fun p => (s, p)).filterMap
        (fun sp =>
          match run sp.1 sp.2 with
          | .ok r => some (sp.1, sp.2, r)
          | .error _ => none) := by
  intro ts
  induction ts with
  | nil => simp
  | cons s t ih =>
    intro acc
    simp only [List.foldl_cons, List.flatMap_cons, List.filterMap_append]
    rw [batch_inner_loop_eq, ih]
    rw [List.filterMap_map, List.append_assoc]
    rfl

/-- C5: a combination whose run raises contributes nothing to the results
and the batch continues: the result list of
`batch_backtest_all_strategies` is exactly the in-order list of the
successful (strategy, parameter) combinations with their results — no
failing combination appears, every succeeding one does, and the batch
never aborts. -/
theorem batch_isolates_combination_failures {S P R E : Type}
    (strategies_to_test : List S) (grid : S → List P) (run : S → P → Except E R) :
    batch_backtest_all_strategies strategies_to_test grid run =
      (strategies_to_test.flatMap fun s => (grid s).map fun p => (s, p)).filterMap
        (fun sp =>
          match run sp.1 sp.2 with
          | .ok r => some (sp.1, sp.2, r)
          | .error _ => none) := by
  unfold batch_backtest_all_strategies
  rw [batch_outer_loop_eq]
  simp

/-! ### find_best_strategy (optimizer.py lines 266-316)

The result dicts compared by `find_best_strategy` are modelled by the
fields it reads.  For the metric `'total_return_pct'`, the metric and
`total_trades` are always numeric in engine results (engine.py lines 374
and 382), but `sharpe_ratio` is `sharpe.get('sharperatio', None)`
(engine.py line 373), which is None whenever backtrader's Sharpe
analyzer produced no value — so it is modelled as `Option ℚ`.  Python's
`list.sort(key=k, reverse=True)` is a stable descending sort by key;
`pySortDesc` below implements that contract for keys whose comparisons
cannot raise, and `pySortDescE` implements it for key comparisons that
may raise TypeError (as the tuple key of optimizer.py line 299 does when
a None sharpe meets a numeric one on a trade-count tie: Python's tuple
`<` falls through the equal first components and evaluates
`None < float`). -/

structure BtResult where
  strategy_name : String
  total_return_pct : ℚ
  sharpe_ratio : Option ℚ
  total_trades : ℕ
deriving DecidableEq, Repr

/-- Python's TypeError, the exception `list.sort` propagates when the
key comparison raises. -/
inductive PyExc where
  | typeError
deriving DecidableEq, Repr

/-- Stable descending insertion: `x` goes after every element with a
strictly greater key and before the first element whose key is not
greater, so elements with equal keys keep their original order. -/
def pySortInsertDesc {α β : Type} [LinearOrder β] (k : α → β) (x : α) : List α → List α
  | [] => [x]
  | b :: t => if k x < k b then b :: pySortInsertDesc k x t else x :: b :: t

/-- Python's `list.sort(key=k, reverse=True)`: a stable descending sort
by key. -/
def pySortDesc {α β : Type} [LinearOrder β] (k : α → β) : List α → List α
  | [] => []
  | x :: xs => pySortInsertDesc k x (pySortDesc k xs)

lemma pySortInsertDesc_perm {α β : Type} [LinearOrder β] (k : α → β) (x : α) :
    ∀ l : List α, (pySortInsertDesc k x l).Perm (x :: l) := by
  intro l
  induction l with
  | nil => simp [pySortInsertDesc]
  | cons b t ih =>
    unfold pySortInsertDesc
    by_cases h : k x < k b
    · simp only [h, if_true]
      exact (ih.cons b).trans (List.Perm.swap x b t)
    · simp [h]

lemma pySortDesc_perm {α β : Type} [LinearOrder β] (k : α → β) :
    ∀ l : List α, (pySortDesc k l).Perm l := by
  intro l
  induction l with
  | nil => simp [pySortDesc]
  | cons x xs ih =>
    unfold pySortDesc
    exact (pySortInsertDesc_perm k x (pySortDesc k xs)).trans (ih.cons x)

/-- The head of the stable descending sort has a maximal key. -/
lemma pySortDesc_head_max {α β : Type} [LinearOrder β] (k : α → β) :
    ∀ (l : List α) (x : α) (t : List α), pySortDesc k l = x :: t →
      ∀ y ∈ l, k y ≤ k x := by
  intro l
  induction l with
  | nil => intro x t h; simp [pySortDesc] at h
  | cons a xs ih =>
    intro x t h y hy
    unfold pySortDesc at h
    cases hs : pySortDesc k xs with
    | nil =>
      rw [hs] at h
      unfold pySortInsertDesc at h
      cases h
      have : xs = [] := by
        have := (pySortDesc_perm k xs).length_eq
        rw [hs] at this
        exact List.length_eq_zero.mp this.symm
      subst this
      simp at hy
      subst hy
      exact le_refl _
    | cons b t2 =>
      rw [hs] at h
      unfold pySortInsertDesc at h
      by_cases hk : k a < k b
      · rw [if_pos hk] at h
        obtain ⟨hb, -⟩ := List.cons.inj h
        subst hb
        rcases List.mem_cons.mp hy with hya | hyxs
        · subst hya
          exact le_of_lt hk
        · exact ih b t2 hs y hyxs
      · rw [if_neg hk] at h
        obtain ⟨hb, -⟩ := List.cons.inj h
        subst hb
        rcases List.mem_cons.mp hy with hya | hyxs
        · subst hya
          exact le_refl _
        · exact le_trans (ih b t2 hs y hyxs) (not_lt.mp hk)

/-- A stable descending sort of a list whose keys are all equal leaves
the list unchanged. -/
lemma pySortDesc_const_key {α β : Type} [LinearOrder β] (k : α → β) (c : β) :
    ∀ l : List α, (∀ y ∈ l, k y = c) → pySortDesc k l = l := by
  intro l
  induction l with
  | nil => simp [pySortDesc]
  | cons x xs ih =>
    intro hc
    unfold pySortDesc
    rw [ih (fun y hy => hc y (List.mem_cons_of_mem x hy))]
    cases xs with
    | nil => simp [pySortInsertDesc]
    | cons b t =>
      unfold pySortInsertDesc
      have hx : k x = c := hc x (List.mem_cons_self x _)
      have hb : k b = c := hc b (List.mem_cons_of_mem x (List.mem_cons_self b t))
      rw [if_neg (by rw [hx, hb]; exact lt_irrefl c)]

/-- The sort key of optimizer.py line 299:
`lambda x: (x.get('total_trades', 0), x.get('sharpe_ratio', -999))`.
The `-999` default never fires — engine results always carry the
`sharpe_ratio` key, possibly holding None — so the key is the pair
(trade count, optional sharpe). -/
def tradesSharpeKey (r : BtResult) : ℕ × Option ℚ :=
  (r.total_trades, r.sharpe_ratio)

/-- Python's `<` on two key tuples: equal first components fall through
to the second components, where `None == None` makes the tuples compare
equal (False), two floats compare numerically, and `None` against a
float raises TypeError. -/
def pyTupleLt (a b : ℕ × Option ℚ) : Except PyExc Bool :=
  if a.1 = b.1 then
    match a.2, b.2 with
    | none, none => .ok false
    | some x, some y => .ok (decide (x < y))
    | none, some _ => .error .typeError
    | some _, none => .error .typeError
  else .ok (decide (a.1 < b.1))

/-- Stable descending insertion whose key comparisons may raise; a raise
propagates out of the sort (Python's `list.sort` aborts with the
comparison's exception). -/
def pySortInsertDescE {α κ : Type} (lt : κ → κ → Except PyExc Bool) (k : α → κ) (x : α) :
    List α → Except PyExc (List α)
  | [] => .ok [x]
  | b :: t => do
    let c ← lt (k x) (k b)
    if c then
      let t2 ← pySortInsertDescE lt k x t
      return b :: t2
    else
      return x :: b :: t

/-- Python's `list.sort(key=k, reverse=True)` for key comparisons that
may raise: a stable descending sort propagating the first raise. -/
def pySortDescE {α κ : Type} (lt : κ → κ → Except PyExc Bool) (k : α → κ) :
    List α → Except PyExc (List α)
  | [] => .ok []
  | x :: xs => do
    let s ← pySortDescE lt k xs
    pySortInsertDescE lt k x s

/-- optimizer.py lines 266-316 with `metric='total_return_pct'`:
return None on an empty list; keep the entries whose metric is present
(always the case for this metric, engine.py line 374); when every entry
has the same metric value (`len(set(metric_values)) == 1`), pre-sort by
`(total_trades, sharpe_ratio)` descending (line 299) — whose key
comparisons may raise TypeError on None sharpes; then sort by the metric
descending (line 312; metric values are plain floats, so that sort
cannot raise and is the pure stable sort) and return the first
element. -/
def find_best_strategy (results : List BtResult) : Except PyExc (Option BtResult) :=
  match results with
  | [] => .ok none
  | _ :: _ =>
    let valid_results := results
    let metric_values := valid_results.map (fun r => r.total_return_pct)
    let all_same := metric_values.dedup.length = 1
    do
      let sorted1 ←
        if all_same then pySortDescE pyTupleLt tradesSharpeKey valid_results
        else .ok valid_results
      let sorted2 := pySortDesc (fun r => r.total_return_pct) sorted1
      return sorted2.head?

/-- The tie-break key as a lexicographic value; under the amended
claim's hypothesis that every sharpe is numeric, the `getD` default is
never consulted. -/
def numericKey (r : BtResult) : ℕ ×ₗ ℚ :=
  toLex (r.total_trades, r.sharpe_ratio.getD 0)

/-- On two results whose sharpes are both numeric, the raising tuple
comparison agrees with the pure lexicographic key order. -/
lemma pyTupleLt_eq_decide (a b : BtResult)
    (ha : a.sharpe_ratio ≠ none) (hb : b.sharpe_ratio ≠ none) :
    pyTupleLt (tradesSharpeKey a) (tradesSharpeKey b) =
      .ok (decide (numericKey a < numericKey b)) := by
  obtain ⟨qa, hqa⟩ := Option.ne_none_iff_exists'.mp ha
  obtain ⟨qb, hqb⟩ := Option.ne_none_iff_exists'.mp hb
  have hlex : (numericKey a < numericKey b) ↔
      (a.total_trades < b.total_trades ∨ (a.total_trades = b.total_trades ∧ qa < qb)) := by
    unfold numericKey
    rw [Prod.Lex.lt_iff, hqa, hqb]
    simp
  unfold pyTupleLt tradesSharpeKey
  rw [hqa, hqb]
  by_cases ht : a.total_trades = b.total_trades
  · rw [if_pos ht]
    have hiff : (numericKey a < numericKey b) ↔ qa < qb := by
      rw [hlex]
      constructor
      · rintro (h | ⟨-, h⟩)
        · omega
        · exact h
      · intro h
        exact Or.inr ⟨ht, h⟩
    show Except.ok (decide (qa < qb)) = Except.ok (decide (numericKey a < numericKey b))
    rw [decide_eq_decide.mpr hiff.symm]
  · rw [if_neg ht]
    have hiff : (numericKey a < numericKey b) ↔ a.total_trades < b.total_trades := by
      rw [hlex]
      constructor
      · rintro (h | ⟨he, -⟩)
        · exact h
        · exact absurd he ht
      · exact Or.inl
    show Except.ok (decide (a.total_trades < b.total_trades)) =
      Except.ok (decide (numericKey a < numericKey b))
    rw [decide_eq_decide.mpr hiff.symm]

/-- With all-numeric sharpes, the raising insertion reduces to the pure
stable insertion. -/
lemma pySortInsertDescE_eq_pure (x : BtResult) (hx : x.sharpe_ratio ≠ none) :
    ∀ l : List BtResult, (∀ b ∈ l, b.sharpe_ratio ≠ none) →
      pySortInsertDescE pyTupleLt tradesSharpeKey x l =
        .ok (pySortInsertDesc numericKey x l) := by
  intro l
  induction l with
  | nil => intro _; rfl
  | cons b t ih =>
    intro h
    have hb : b.sharpe_ratio ≠ none := h b (List.mem_cons_self b t)
    have ht : ∀ y ∈ t, y.sharpe_ratio ≠ none := fun y hy => h y (List.mem_cons_of_mem b hy)
    unfold pySortInsertDescE pySortInsertDesc
    rw [pyTupleLt_eq_decide x b hx hb]
    by_cases hlt : numericKey x < numericKey b
    · rw [decide_eq_true hlt, if_pos hlt, ih ht]
      rfl
    · rw [decide_eq_false hlt, if_neg hlt]
      rfl

/-- With all-numeric sharpes, the raising sort succeeds and equals the
pure stable descending sort by the lexicographic key. -/
lemma pySortDescE_eq_pure :
    ∀ l : List BtResult, (∀ b ∈ l, b.sharpe_ratio ≠ none) →
      pySortDescE pyTupleLt tradesSharpeKey l = .ok (pySortDesc numericKey l) := by
  intro l
  induction l with
  | nil => intro _; rfl
  | cons x xs ih =>
    intro h
    have hx : x.sharpe_ratio ≠ none := h x (List.mem_cons_self x xs)
    have hxs : ∀ y ∈ xs, y.sharpe_ratio ≠ none := fun y hy => h y (List.mem_cons_of_mem x hy)
    have hmem : ∀ b ∈ pySortDesc numericKey xs, b.sharpe_ratio ≠ none := fun b hb =>
      hxs b ((pySortDesc_perm numericKey xs).mem_iff.mp hb)
    unfold pySortDescE pySortDesc
    rw [ih hxs]
    exact pySortInsertDescE_eq_pure x hx _ hmem

/-- A nonempty list whose elements all map to `c` dedups to `[c]`. -/
lemma map_const_dedup {α : Type} [DecidableEq α] (c : α) :
    ∀ l : List α, l ≠ [] → (∀ y ∈ l, y = c) → l.dedup = [c] := by
  intro l
  induction l with
  | nil => intro h; exact absurd rfl h
  | cons x xs ih =>
    intro _ hc
    have hx : x = c := hc x (List.mem_cons_self x xs)
    subst hx
    cases xs with
    | nil => simp
    | cons b t =>
      have hb : b = x := (hc b (List.mem_cons_of_mem x (List.mem_cons_self b t))).trans
        (hc x (List.mem_cons_self x _)).symm
      have hmem : x ∈ b :: t := by rw [hb]; exact List.mem_cons_self x t
      rw [List.dedup_cons_of_mem hmem]
      exact ih (List.cons_ne_nil b t) fun y hy => hc y (List.mem_cons_of_mem x hy)

/-- Concrete results for the C4 counterexample: both entries share the
zero return and the trade count, one carries a None sharpe and the other
a numeric one — the inputs engine results really produce. -/
def mixedSharpeResults : List BtResult :=
  [ { strategy_name := "a", total_return_pct := 0, sharpe_ratio := none, total_trades := 5 },
    { strategy_name := "b", total_return_pct := 0, sharpe_ratio := some 1, total_trades := 5 } ]

/-- C4 counterexample: on `mixedSharpeResults` — nonempty, every
`total_return_pct` equal — the tie-break sort compares the None sharpe
with the numeric one on the trade-count tie and raises TypeError, so
`find_best_strategy` returns no entry at all, rather than the entry with
the highest `total_trades`. -/
theorem find_best_strategy_none_sharpe_counterexample :
    mixedSharpeResults ≠ [] ∧
      (∀ r ∈ mixedSharpeResults, r.total_return_pct = 0) ∧
      find_best_strategy mixedSharpeResults = .error .typeError := by
  refine ⟨by decide, by decide, ?_⟩
  rfl

/-- C4 amended: on a nonempty result list in which every entry has the
same `total_return_pct` and every entry's `sharpe_ratio` is a number
(not None), `find_best_strategy` with metric `'total_return_pct'`
returns an entry with the highest `total_trades`, ties on trade count
broken by higher `sharpe_ratio` — not simply the first entry of the
list. -/
theorem find_best_strategy_breaks_ties_by_trades :
    ∀ (results : List BtResult) (c : ℚ),
      results ≠ [] →
      (∀ r ∈ results, r.total_return_pct = c) →
      (∀ r ∈ results, r.sharpe_ratio ≠ none) →
      ∃ best, find_best_strategy results = .ok (some best) ∧ best ∈ results ∧
        ∀ r ∈ results,
          r.total_trades < best.total_trades ∨
            (r.total_trades = best.total_trades ∧
              ∀ qr qb, r.sharpe_ratio = some qr → best.sharpe_ratio = some qb → qr ≤ qb) := by
  intro results c hne hc hnum
  match results, hne with
  | a :: rest, _ =>
    have hcc : ∀ r ∈ a :: rest, r.total_return_pct = c := hc
    have hnn : ∀ r ∈ a :: rest, r.sharpe_ratio ≠ none := hnum
    have hdedup : ((a :: rest).map (fun r => r.total_return_pct)).dedup = [c] :=
      map_const_dedup c _ (by simp) (by
        intro y hy
        obtain ⟨r, hr, hry⟩ := List.mem_map.mp hy
        rw [← hry]
        exact hcc r hr)
    have hall : ((a :: rest).map (fun r => r.total_return_pct)).dedup.length = 1 := by
      rw [hdedup]; rfl
    have hperm := pySortDesc_perm numericKey (a :: rest)
    obtain ⟨x, t, hxt⟩ : ∃ x t, pySortDesc numericKey (a :: rest) = x :: t := by
      cases hs : pySortDesc numericKey (a :: rest) with
      | nil =>
        have := hperm.length_eq
        rw [hs] at this
        simp at this
      | cons x t => exact ⟨x, t, rfl⟩
    have hsorted1_mem : ∀ y ∈ pySortDesc numericKey (a :: rest), y ∈ a :: rest :=
      fun y hy => hperm.mem_iff.mp hy
    have hsecond : pySortDesc (fun r => r.total_return_pct)
        (pySortDesc numericKey (a :: rest)) = pySortDesc numericKey (a :: rest) :=
      pySortDesc_const_key _ c _ (fun y hy => hcc y (hsorted1_mem y hy))
    refine ⟨x, ?_, ?_, ?_⟩
    · show find_best_strategy (a :: rest) = .ok (some x)
      unfold find_best_strategy
      simp only [hall, eq_self_iff_true, if_true]
      rw [pySortDescE_eq_pure (a :: rest) hnn]
      show Except.ok ((pySortDesc (fun r => r.total_return_pct)
        (pySortDesc numericKey (a :: rest))).head?) = Except.ok (some x)
      rw [hsecond, hxt]
      rfl
    · exact hsorted1_mem x (by rw [hxt]; exact List.mem_cons_self x t)
    · intro r hr
      have hle : numericKey r ≤ numericKey x :=
        pySortDesc_head_max numericKey (a :: rest) x t hxt r hr
      rcases (Prod.Lex.le_iff _ _).mp hle with h | ⟨he, hq⟩
      · exact Or.inl h
      · refine Or.inr ⟨he, ?_⟩
        intro qr qb hqr hqb
        have : (r.sharpe_ratio.getD 0) ≤ (x.sharpe_ratio.getD 0) := hq
        rw [hqr, hqb] at this
        simpa using this

/-- Concrete results for the C4 witness: the first entry never traded,
the later entries share the zero return but traded; entry `"b"` has five
trades with the better Sharpe of the five-trade pair, and every sharpe is
numeric. -/
def tiedResults : List BtResult :=
  [ { strategy_name := "a", total_return_pct := 0, sharpe_ratio := some 3, total_trades := 0 },
    { strategy_name := "b", total_return_pct := 0, sharpe_ratio := some 2, total_trades := 5 },
    { strategy_name := "c", total_return_pct := 0, sharpe_ratio := some 1, total_trades := 5 } ]

/-- Witness for the amended C4: on `tiedResults` (all returns 0, all
sharpes numeric) the selected entry maximizes trade count and then
Sharpe. -/
theorem find_best_strategy_breaks_ties_by_trades_witness :
    tiedResults ≠ [] ∧ (∀ r ∈ tiedResults, r.total_return_pct = 0) ∧
      (∀ r ∈ tiedResults, r.sharpe_ratio ≠ none) ∧
      (∃ best, find_best_strategy tiedResults = .ok (some best) ∧ best ∈ tiedResults ∧
        ∀ r ∈ tiedResults,
          r.total_trades < best.total_trades ∨
            (r.total_trades = best.total_trades ∧
              ∀ qr qb, r.sharpe_ratio = some qr → best.sharpe_ratio = some qb → qr ≤ qb)) :=
  ⟨by decide, by decide, by decide,
    find_best_strategy_breaks_ties_by_trades tiedResults 0 (by decide) (by decide) (by decide)⟩

/-! ### IndicatorEngine._calc_rsi (indicators.py lines 20-28)

pandas/numpy float arithmetic does not raise on division by zero: it
yields ±inf (or NaN for 0/0) with at most a warning.  `PF` models a
float64 value exactly — a finite rational, a signed infinity, or NaN —
and the operations below implement the IEEE-754 special-value rules for
the cases that arise (no rounding is modelled, finite arithmetic is exact
rational arithmetic, and signed zero is not distinguished). -/

inductive PF where
  | fin (q : ℚ)
  | pinf
  | ninf
  | nan
deriving DecidableEq, Repr

def PF.add : PF → PF → PF
  | nan, _ => nan
  | _, nan => nan
  | fin a, fin b => fin (a + b)
  | fin _, pinf => pinf
  | pinf, fin _ => pinf
  | pinf, pinf => pinf
  | fin _, ninf => ninf
  | ninf, fin _ => ninf
  | ninf, ninf => ninf
  | pinf, ninf => nan
  | ninf, pinf => nan

def PF.sub : PF → PF → PF
  | nan, _ => nan
  | _, nan => nan
  | fin a, fin b => fin (a - b)
  | fin _, pinf => ninf
  | pinf, fin _ => pinf
  | pinf, ninf => pinf
  | fin _, ninf => pinf
  | ninf, fin _ => ninf
  | ninf, pinf => ninf
  | pinf, pinf => nan
  | ninf, ninf => nan

/-- IEEE division: a nonzero finite value divided by (positive) zero is a
signed infinity, `0/0` is NaN, a finite value divided by an infinity is
zero. -/
def PF.div : PF → PF → PF
  | nan, _ => nan
  | _, nan => nan
  | fin a, fin b =>
    if b = 0 then
      if a = 0 then nan else if 0 < a then pinf else ninf
    else fin (a / b)
  | fin _, pinf => fin 0
  | fin _, ninf => fin 0
  | pinf, fin b => if 0 ≤ b then pinf else ninf
  | ninf, fin b => if 0 ≤ b then ninf else pinf
  | pinf, pinf => nan
  | pinf, ninf => nan
  | ninf, pinf => nan
  | ninf, ninf => nan

/-- The series `delta = series.diff()` followed by `delta.where(delta > 0, 0)`
(indicators.py lines 23-24): the first delta is NaN, and `NaN > 0` is
False, so the first gain is 0; a positive delta is kept, anything else
becomes 0.  Yields plain rationals because every NaN is replaced. -/
def rsiGains (series : List ℚ) : List ℚ :=
  match series with
  | [] => []
  | _ :: tail =>
    0 :: List.zipWith (fun b a => let delta := b - a; if delta > 0 then delta else 0)
      tail series

/-- The series `(-delta.where(delta < 0, 0))` (indicators.py line 25): a negative
delta is kept and negated, anything else (including the leading NaN)
becomes 0. -/
def rsiLosses (series : List ℚ) : List ℚ :=
  match series with
  | [] => []
  | _ :: tail =>
    0 :: List.zipWith (fun b a => let delta := b - a; if delta < 0 then -delta else 0)
      tail series

/-- Rolling mean `.rolling(window=period).mean()` with the default
`min_periods = window`: NaN until a full window is available, then the
arithmetic mean of the trailing `period` values. -/
def rollingMean (period : ℕ) (s : List ℚ) : List PF :=
  (List.range s.length).map (fun i =>
    if 1 ≤ period ∧ period ≤ i + 1 then
      PF.fin (((s.drop (i + 1 - period)).take period).sum / period)
    else PF.nan)

/-- Translation of `IndicatorEngine._calc_rsi` (indicators.py lines 20-28):
`rs = gain / loss; rsi = 100 - (100 / (1 + rs))`, elementwise in
float arithmetic. -/
def calc_rsi (series : List ℚ) (period : ℕ) : List PF :=
  let gain := rollingMean period (rsiGains series)
  let loss := rollingMean period (rsiLosses series)
  List.zipWith
    (fun g l => PF.sub (PF.fin 100) (PF.div (PF.fin 100) (PF.add (PF.fin 1) (PF.div g l))))
    gain loss

/-- C9: the RSI computation yields a defined value when the rolling
average loss is zero — no division-by-zero error: at any index past the
warm-up where the average loss is 0 and the average gain is positive,
RSI equals 100 (rs = +inf, 100/(1+inf) = 0). -/
theorem rsi_zero_loss_gives_100 :
    ∀ (series : List ℚ) (period i : ℕ) (g : ℚ),
      (rollingMean period (rsiGains series)).get? i = some (PF.fin g) →
      0 < g →
      (rollingMean period (rsiLosses series)).get? i = some (PF.fin 0) →
      (calc_rsi series period).get? i = some (PF.fin 100) := by
  intro series period i g hg hpos hl
  unfold calc_rsi
  rw [List.get?_zipWith', hg, hl]
  have hgne : g ≠ 0 := ne_of_gt hpos
  simp [PF.div, PF.add, PF.sub, hgne, hpos]

/-- On the rising series [1, 2, 3] with period 2, the rolling average
gain at index 2 is 1. -/
lemma rsiWitnessGainAvg : (rollingMean 2 (rsiGains [1, 2, 3])).get? 2 = some (PF.fin 1) := by
  norm_num [rollingMean, rsiGains, List.range_succ]

/-- On the rising series [1, 2, 3] with period 2, the rolling average
loss at index 2 is 0. -/
lemma rsiWitnessLossAvg : (rollingMean 2 (rsiLosses [1, 2, 3])).get? 2 = some (PF.fin 0) := by
  norm_num [rollingMean, rsiLosses, List.range_succ]

/-- Witness for C9: on the series [1, 2, 3] with period 2, index 2 has
average gain 1 and average loss 0, and the RSI there is 100. -/
theorem rsi_zero_loss_gives_100_witness :
    (rollingMean 2 (rsiGains [1, 2, 3])).get? 2 = some (PF.fin 1) ∧
      (0 : ℚ) < 1 ∧
      (rollingMean 2 (rsiLosses [1, 2, 3])).get? 2 = some (PF.fin 0) ∧
      (calc_rsi [1, 2, 3] 2).get? 2 = some (PF.fin 100) :=
  ⟨rsiWitnessGainAvg, by decide, rsiWitnessLossAvg,
    rsi_zero_loss_gives_100 [1, 2, 3] 2 2 1 rsiWitnessGainAvg (by decide) rsiWitnessLossAvg⟩

/-! ### Command.aggregate_kline (aggregate_minute_data.py lines 33-77)

`df.resample('5min')` / `df.resample('1h')` groups rows into fixed-width,
left-closed, left-labelled time buckets; the `agg` dict takes
open = first, high = max, low = min, close = last, volume = sum,
amount = sum per bucket, and the trailing `dropna()` removes the rows of
buckets that contained no input bars (their OHLC aggregates are NaN).
Timestamps are minutes; a bucket is identified by its start. -/

structure MBar where
  t : ℕ
  open_ : ℚ
  high : ℚ
  low : ℚ
  close : ℚ
  volume : ℚ
  amount : ℚ
deriving DecidableEq, Repr

structure AggBar where
  t : ℕ
  open_ : ℚ
  high : ℚ
  low : ℚ
  close : ℚ
  volume : ℚ
  amount : ℚ
deriving DecidableEq, Repr

/-- The bucket (start minute) a bar with timestamp `t` falls into under a
`w`-minute resample rule. -/
def bucketStart (w t : ℕ) : ℕ := t / w * w

/-- One resampled row: the agg dict applied to the bars of one bucket
(in input order), or none for an empty bucket (dropped by `dropna`). -/
def aggGroup (k : ℕ) : List MBar → Option AggBar
  | [] => none
  | b0 :: rest =>
    some
      { t := k,
        open_ := b0.open_,
        high := (rest.map MBar.high).foldl max b0.high,
        low := (rest.map MBar.low).foldl min b0.low,
        close := ((b0 :: rest).map MBar.close).getLast (by simp),
        volume := ((b0 :: rest).map MBar.volume).sum,
        amount := ((b0 :: rest).map MBar.amount).sum }

/-- The pipeline `df.resample(rule).agg(...)` followed by `dropna()`: one output row
per bucket that contains at least one input bar. -/
def resampleAgg (w : ℕ) (df : List MBar) : List AggBar :=
  ((df.map (fun b => bucketStart w b.t)).dedup).filterMap
    (fun k => aggGroup k (df.filter (fun b => bucketStart w b.t = k)))

/-- Translation of `Command.aggregate_kline` (lines 33-77): resample by 5 or 60 minutes;
any other interval raises ValueError. -/
def aggregate_kline (df_1m : List MBar) (interval_minutes : ℕ) :
    Except String (List AggBar) :=
  if interval_minutes = 5 then .ok (resampleAgg 5 df_1m)
  else if interval_minutes = 60 then .ok (resampleAgg 60 df_1m)
  else .error "unsupported interval"

/-- A produced row is labelled with its bucket key. -/
lemma aggGroup_t (k : ℕ) (g : List MBar) (row : AggBar) (h : aggGroup k g = some row) :
    row.t = k := by
  cases g with
  | nil => simp [aggGroup] at h
  | cons b0 rest =>
    simp only [aggGroup, Option.some.injEq] at h
    rw [← h]

/-- C10: for both supported rules (5- and 60-minute), resampling produces
for each bucket with at least one input bar an output bar with
open = first open, high = max of highs, low = min of lows, close = last
close, volume = sum of volumes, amount = sum of amounts, and drops every
bucket containing no input bars. -/
theorem resample_ohlcv_bucket_rule :
    ∀ (df : List MBar) (w : ℕ), w = 5 ∨ w = 60 →
      aggregate_kline df w = .ok (resampleAgg w df) ∧
      (∀ k, df.filter (fun b => bucketStart w b.t = k) = [] →
        ∀ row ∈ resampleAgg w df, row.t ≠ k) ∧
      (∀ k b0 g, df.filter (fun b => bucketStart w b.t = k) = b0 :: g →
        ∃ row ∈ resampleAgg w df, row.t = k ∧
          ((b0 :: g).map MBar.open_).head? = some row.open_ ∧
          ((b0 :: g).map MBar.high).max? = some row.high ∧
          ((b0 :: g).map MBar.low).min? = some row.low ∧
          ((b0 :: g).map MBar.close).getLast? = some row.close ∧
          row.volume = ((b0 :: g).map MBar.volume).sum ∧
          row.amount = ((b0 :: g).map MBar.amount).sum) := by
  intro df w hw
  refine ⟨?_, ?_, ?_⟩
  · rcases hw with h | h <;> subst h <;> rfl
  · intro k hempty row hrow hkt
    obtain ⟨a, ha, hrowa⟩ := List.mem_filterMap.mp hrow
    have hta := aggGroup_t a _ row hrowa
    rw [hta] at hkt
    subst hkt
    rw [hempty] at hrowa
    simp [aggGroup] at hrowa
  · intro k b0 g hfilter
    have hb0 : b0 ∈ df.filter (fun b => bucketStart w b.t = k) := by
      rw [hfilter]; exact List.mem_cons_self b0 g
    have hb0' := List.mem_filter.mp hb0
    have hkey : bucketStart w b0.t = k := by
      have := hb0'.2
      simpa using this
    have hkmem : k ∈ (df.map (fun b => bucketStart w b.t)).dedup := by
      rw [List.mem_dedup]
      exact List.mem_map.mpr ⟨b0, hb0'.1, hkey⟩
    refine ⟨{ t := k, open_ := b0.open_,
              high := (g.map MBar.high).foldl max b0.high,
              low := (g.map MBar.low).foldl min b0.low,
              close := ((b0 :: g).map MBar.close).getLast (by simp),
              volume := ((b0 :: g).map MBar.volume).sum,
              amount := ((b0 :: g).map MBar.amount).sum }, ?_, rfl, ?_, ?_, ?_, ?_, rfl, rfl⟩
    · exact List.mem_filterMap.mpr ⟨k, hkmem, by rw [hfilter]; rfl⟩
    · rfl
    · rfl
    · rfl
    · exact List.getLast?_eq_getLast _ _

/-- Minute bars for the C10 witness: two bars in the bucket starting at
minute 0, one in the bucket starting at minute 5, and none in between. -/
def mbar0 : MBar := { t := 0, open_ := 1, high := 5, low := 1, close := 2, volume := 10, amount := 100 }

def mbar1 : MBar := { t := 1, open_ := 2, high := 6, low := 0, close := 3, volume := 20, amount := 200 }

def mbar7 : MBar := { t := 7, open_ := 4, high := 4, low := 4, close := 4, volume := 5, amount := 50 }

def minuteBars : List MBar := [mbar0, mbar1, mbar7]

/-- Witness for C10: the 5-minute rule on `minuteBars`, instantiated at
the bucket starting at minute 0, which holds bars 0 and 1. -/
theorem resample_ohlcv_bucket_rule_witness :
    ((5 : ℕ) = 5 ∨ (5 : ℕ) = 60) ∧
      minuteBars.filter (fun b => bucketStart 5 b.t = 0) = [mbar0, mbar1] ∧
      (∃ row ∈ resampleAgg 5 minuteBars, row.t = 0 ∧
        ((mbar0 :: [mbar1]).map MBar.open_).head? = some row.open_ ∧
        ((mbar0 :: [mbar1]).map MBar.high).max? = some row.high ∧
        ((mbar0 :: [mbar1]).map MBar.low).min? = some row.low ∧
        ((mbar0 :: [mbar1]).map MBar.close).getLast? = some row.close ∧
        row.volume = ((mbar0 :: [mbar1]).map MBar.volume).sum ∧
        row.amount = ((mbar0 :: [mbar1]).map MBar.amount).sum) :=
  ⟨Or.inl rfl, by decide,
    (resample_ohlcv_bucket_rule minuteBars 5 (Or.inl rfl)).2.2 0 mbar0 [mbar1] (by decide)⟩

end QuantTrans
